import Mathlib

/-
Verification of the civil-registry PDF extraction pipeline (main.py).

The program's string-level operations are embedded shallowly over `List Char`:
Python strings become `List Char`, Python `None` becomes `Option.none`, and
a Python function that may raise (and is observed raising by a caller's
`try/except`) is modelled with `Except Unit`.  Each definition mirrors one
function of the source; the regular expressions are modelled by direct
recursive matchers with Python `re.search` leftmost-then-greedy semantics.
`\d` and `\w` are modelled over the character set the source actually
processes (ASCII plus the accented letters the source's own character class
spells out); `str.lower` is modelled on ASCII letters.
-/

namespace PdfExtract

/-- Characters Python `str.strip()` removes: ASCII whitespace. -/
def isSpc (c : Char) : Bool :=
  c == ' ' || c == '\t' || c == '\n' || c == '\r' || c == '\x0b' || c == '\x0c'

/-- ASCII decimal digit, the model of the regex class `\d`. -/
def isDig (c : Char) : Bool := c.isDigit

/-- Abbreviation turning a string literal into the `List Char` it denotes. -/
def toL (s : String) : List Char := s.data

/-- `leadsWith pat s` holds when `pat` is an initial segment of `s`. -/
def leadsWith : List Char → List Char → Bool
  | [], _ => true
  | _ :: _, [] => false
  | a :: as, b :: bs => a == b && leadsWith as bs

/-- Python's substring test `pat in s`. -/
def containsSub (pat : List Char) : List Char → Bool
  | [] => leadsWith pat []
  | c :: rest => leadsWith pat (c :: rest) || containsSub pat rest

/-- Python `s.lstrip()`. -/
def lstrip (s : List Char) : List Char := s.dropWhile isSpc

/-- Python `s.rstrip()`. -/
def rstripWs (s : List Char) : List Char := (s.reverse.dropWhile isSpc).reverse

/-- Python `s.strip()`. -/
def strip (s : List Char) : List Char := rstripWs (lstrip s)

/-- Python `s.rstrip('N')`: remove every trailing literal `N`. -/
def rstripN (s : List Char) : List Char :=
  (s.reverse.dropWhile (fun c => c == 'N')).reverse

/-- Python `s.split(sep)` for a one-character separator: `"".split` gives
`[""]`, separators at the ends produce empty pieces. -/
def splitSep (sep : Char) : List Char → List (List Char)
  | [] => [[]]
  | c :: rest =>
    if c = sep then [] :: splitSep sep rest
    else
      match splitSep sep rest with
      | [] => [[c]]
      | h :: t => (c :: h) :: t

/-- `row[0].split('\n')` of the source. -/
def splitNl (s : List Char) : List (List Char) := splitSep '\n' s

/-- `os.path.basename` on POSIX paths: the part after the last `/`. -/
def basenameP (s : List Char) : List Char := (splitSep '/' s).getLastD []

/-- Python `lower()` on an ASCII letter (claims use ASCII inputs; non-ASCII
characters are left unchanged, which cannot change an ASCII-substring test). -/
def lowerChar (c : Char) : Char :=
  if 'A' ≤ c && c ≤ 'Z' then Char.ofNat (c.toNat + 32) else c

/-- Python `s.lower()`. -/
def lowerL (s : List Char) : List Char := s.map lowerChar

/-- Does the fixed-length pattern `\d{2}-\d{2}-\d{4}` match at the head of
the list?  On success, returns the 10 matched characters. -/
def dateAt : List Char → Option (List Char)
  | a :: b :: c :: d :: e :: f :: g :: h :: i :: j :: _ =>
    if isDig a && isDig b && c == '-' && isDig d && isDig e && f == '-' &&
       isDig g && isDig h && isDig i && isDig j then
      some [a, b, c, d, e, f, g, h, i, j]
    else none
  | _ => none

/-- `re.search(r'\d{2}-\d{2}-\d{4}', text)`: the leftmost match. -/
def searchDate : List Char → Option (List Char)
  | [] => none
  | c :: rest =>
    match dateAt (c :: rest) with
    | some d => some d
    | none => searchDate rest

/-- Python `text.replace(pat, '')` with bounded fuel: removes every
left-to-right non-overlapping occurrence of `pat`.  The fuel starts at the
length of the text, which one step always decreases, so it never runs out. -/
def stripOccF (pat : List Char) : Nat → List Char → List Char
  | 0, _ => []
  | _, [] => []
  | fuel + 1, c :: rest =>
    if leadsWith pat (c :: rest) then
      stripOccF pat fuel (rest.drop (pat.length - 1))
    else c :: stripOccF pat fuel rest

/-- Python `text.replace(pat, '')`: every occurrence of `pat` removed. -/
def stripOcc (pat s : List Char) : List Char := stripOccF pat s.length s

/-- Modelled from the spec: its words for DateTagger's remainder say the
matched substring is "removed once"; this comparison definition removes only
the first occurrence, unlike the source's `str.replace`. -/
def removeFirstOcc (pat : List Char) : List Char → List Char
  | [] => []
  | c :: rest =>
    if leadsWith pat (c :: rest) then rest.drop (pat.length - 1)
    else c :: removeFirstOcc pat rest

/-- `extract_name_and_date` (main.py:25-45): search for the first
`\d{2}-\d{2}-\d{4}` match; on a hit return the text with every occurrence of
the matched substring removed and then stripped, plus the date; otherwise
the text unchanged and no date. -/
def extract_name_and_date (text : List Char) : List Char × Option (List Char) :=
  match searchDate text with
  | some d => (strip (stripOcc d text), some d)
  | none => (text, none)

/-- The accented letters spelled out in the source's character class
`[\w\sçÇáéíóúàèìòùãõâêîôûäëïöüÄËÏÖÜñÑ]`. -/
def accentChars : List Char :=
  ['ç', 'Ç', 'á', 'é', 'í', 'ó', 'ú', 'à', 'è', 'ì', 'ò', 'ù', 'ã', 'õ',
   'â', 'ê', 'î', 'ô', 'û', 'ä', 'ë', 'ï', 'ö', 'ü', 'Ä', 'Ë', 'Ï', 'Ö',
   'Ü', 'ñ', 'Ñ']

/-- The regex class `\w` plus the accent list of the source's pattern. -/
def isWordC (c : Char) : Bool := c.isAlphanum || c == '_' || accentChars.contains c

/-- First capture's class: `[\w\sç...Ñ]`. -/
def classC1 (c : Char) : Bool := isWordC c || isSpc c

/-- Second capture's class: `[\w\sç...Ñ-]`. -/
def classC2 (c : Char) : Bool := classC1 c || c == '-'

/-- After a candidate first capture: match the literal `Posto`, optional
whitespace, a colon, then the second capture `\s*([classC2]+)`.  Because
whitespace lies inside `classC2`, the whitespace-then-capture span is
exactly the maximal `classC2` run, which must be non-empty. -/
def afterPosto (s : List Char) : Option (List Char) :=
  if leadsWith (toL "Posto") s then
    match (s.drop 5).dropWhile isSpc with
    | ':' :: s2 =>
      let g2 := (s2.span (fun c => classC2 c)).1
      if g2.isEmpty then none else some g2
    | _ => none
  else none

/-- Greedy placement of the boundary between the first capture and the
literal `Posto`: the first capture is `\s*([classC1]+)\s*` — since `\s` lies
inside `classC1` its possible spans are exactly the non-empty prefixes of
the maximal `classC1` run — and a greedy engine backtracks from the longest
prefix, so the largest viable split wins.  Tries length `k` downward. -/
def tryQ (s3 : List Char) : Nat → Option (List Char × List Char)
  | 0 => none
  | k + 1 =>
    match afterPosto (s3.drop (k + 1)) with
    | some g2 => some (s3.take (k + 1), g2)
    | none => tryQ s3 k

/-- Attempt the whole pattern
`Concelho\s*:\s*([classC1]+)\s*Posto\s*:\s*([classC2]+)` at the head of `s`,
returning the two captures. -/
def matchConcelhoAt (s : List Char) : Option (List Char × List Char) :=
  if leadsWith (toL "Concelho") s then
    match (s.drop 8).dropWhile isSpc with
    | ':' :: s3 =>
      let run := (s3.span (fun c => classC1 c)).1
      tryQ s3 run.length
    | _ => none
  else none

/-- `re.search` of the Concelho/Posto pattern: leftmost start position wins. -/
def searchConcelho : List Char → Option (List Char × List Char)
  | [] => none
  | c :: rest =>
    match matchConcelhoAt (c :: rest) with
    | some r => some r
    | none => searchConcelho rest

/-- `extract_concelho_and_posto` (main.py:47-71): on a match, the first
capture stripped and the second capture stripped, cleared of trailing `N`s,
and stripped again; otherwise `(None, None)`. -/
def extract_concelho_and_posto (pageText : List Char) :
    Option (List Char) × Option (List Char) :=
  match searchConcelho pageText with
  | some (g1, g2) => (some (strip g1), some (strip (rstripN (strip g2))))
  | none => (none, none)

/-- `determine_type` (main.py:73-91): case-insensitive substring tests on
the file name, the `naciona` stem first. -/
def determine_type (fileName : List Char) : List Char :=
  if containsSub (toL "naciona") (lowerL fileName) = true then toL "nacionais"
  else if containsSub (toL "estrangeiro") (lowerL fileName) = true then toL "estrangeiros"
  else toL "unknown"

/-- One trimmed cell line run through the date tagger, as the loops of
`process_table`/`process_cells` do: `extract_name_and_date(cell.strip())`. -/
def tagOf (cell : List Char) : List Char × Option (List Char) :=
  extract_name_and_date (strip cell)

/-- The `for cell in cells[1:]` loop of `process_cells` (main.py:187-194):
a date-bearing line overwrites the name and the birth date, any other line
overwrites `parent_2`. -/
def linesPass : List (List Char) → List Char → List Char → List Char →
    List Char × List Char × List Char
  | [], nome, p2, dn => (nome, p2, dn)
  | cell :: rest, nome, p2, dn =>
    match tagOf cell with
    | (name, some d) => linesPass rest name p2 d
    | (name, none) => linesPass rest nome name dn

/-- `process_cells` (main.py:170-203).  The fallback's `parent_1 = parent_2`
assigns to a local that is not part of the return value, so it is dropped
here exactly as Python drops it. -/
def process_cells (cells : List (List Char)) (parent_1 : List Char)
    (dateInParent1 : Option (List Char)) : List Char × List Char × List Char :=
  match linesPass (cells.drop 1) [] [] (dateInParent1.getD []) with
  | (nome, p2, dn) => if nome = [] then (parent_1, [], dn) else (nome, p2, dn)

/-- Lines 151-152 of `process_table` plus the record fields they feed: tag
the first trimmed line, run `process_cells`, and emit
(nome_completo, the caller's still-unchanged parent_1, parent_2, date). -/
def cellParse (cells : List (List Char)) :
    List Char × List Char × List Char × List Char :=
  match extract_name_and_date (strip (cells.headD [])) with
  | (parent_1, dateInP1) =>
    match process_cells cells parent_1 dateInP1 with
    | (nome, p2, dn) => (nome, parent_1, p2, dn)

/-- The row dictionary built by `process_table` (main.py:154-163). -/
structure Record where
  nomeCompleto : List Char
  parent1 : List Char
  parent2 : List Char
  dataNascimento : List Char
  concelho : Option (List Char)
  posto : Option (List Char)
  docType : List Char
  fileName : List Char
deriving DecidableEq, Repr

/-- The literal header row text skipped by `process_table`. -/
def headerL : List Char := toL "NOME COMPLETO FILIAÇÃO DATA NASC.º"

/-- Assemble one `Record` from the `cellParse` tuple and the document-level
metadata, with `File Name` the basename of the document path. -/
def mkRec (q : List Char × List Char × List Char × List Char)
    (c p : Option (List Char)) (ft path : List Char) : Record :=
  { nomeCompleto := q.1, parent1 := q.2.1, parent2 := q.2.2.1,
    dataNascimento := q.2.2.2, concelho := c, posto := p,
    docType := ft, fileName := basenameP path }

/-- The row loop of `process_table` (main.py:142-164).  A row is a list of
cells; `row[0]` on a cell-less row raises `IndexError`, which the
function's own `except` turns into "return what was accumulated so far",
dropping the rest of that one table.  `cells` names `row[0].split('\n')`,
computed once in the source. -/
def processRows (c p : Option (List Char)) (ft path : List Char) :
    List (List (List Char)) → List Record
  | [] => []
  | row :: rest =>
    match row.head? with
    | none => []
    | some cell0 =>
      if cell0 = headerL then processRows c p ft path rest
      else if (splitNl cell0).length < 2 then processRows c p ft path rest
      else mkRec (cellParse (splitNl cell0)) c p ft path :: processRows c p ft path rest

/-- `process_table` (main.py:126-168). -/
def process_table (table : List (List (List Char))) (c p : Option (List Char))
    (ft path : List Char) : List Record :=
  processRows c p ft path table

/-- One PDF page as the loop of `extract_tables_from_pdf` consumes it.
`Except.error` marks a call (`page.extract_text()` / `page.extract_tables()`)
that raises; the single `except` of `extract_tables_from_pdf` sits outside
the page loop, so such an error ends the whole loop. -/
structure Page where
  textRes : Except Unit (List Char)
  tablesRes : Except Unit (List (List (List (List Char))))

/-- Python truthiness of the `concelho`/`posto` variables: `None` and the
empty string are falsy. -/
def truthy : Option (List Char) → Bool
  | none => false
  | some s => !s.isEmpty

/-- The page loop of `extract_tables_from_pdf` (main.py:107-124).  While
`not concelho or not posto`, the page's text is fetched and both labels are
reassigned wholesale from `extract_concelho_and_posto`; afterwards the
page's tables are fetched and each table's records appended.  A raising
fetch ends the loop, returning the records and labels accumulated so far. -/
def pagesLoop (ft path : List Char) : List Page → Option (List Char) →
    Option (List Char) → List Record →
    List Record × Option (List Char) × Option (List Char)
  | [], c, p, acc => (acc, c, p)
  | pg :: rest, c, p, acc =>
    if !truthy c || !truthy p then
      match pg.textRes with
      | Except.error _ => (acc, c, p)
      | Except.ok t =>
        let cp := extract_concelho_and_posto t
        match pg.tablesRes with
        | Except.error _ => (acc, cp.1, cp.2)
        | Except.ok tbls =>
          pagesLoop ft path rest cp.1 cp.2
            (acc ++ tbls.flatMap (fun tb => process_table tb cp.1 cp.2 ft path))
    else
      match pg.tablesRes with
      | Except.error _ => (acc, c, p)
      | Except.ok tbls =>
        pagesLoop ft path rest c p
          (acc ++ tbls.flatMap (fun tb => process_table tb c p ft path))

/-- `extract_tables_from_pdf` (main.py:93-124): the document type comes from
`determine_type(pdf_path)` on the full path, the labels start as `None`. -/
def extract_tables_from_pdf (pages : List Page) (pdfPath : List Char) :
    List Record × Option (List Char) × Option (List Char) :=
  pagesLoop (determine_type pdfPath) pdfPath pages none none []

/-- A page with its text fetch poisoned; used to state that a stage never
reads page text. -/
def eraseText (pg : Page) : Page := ⟨Except.error (), pg.tablesRes⟩

/-- Last line of `cells[1:]` that carries a date, with its tagged
remainder: the "last date-bearing line wins" reading of the loop. -/
def lastTagged : List (List Char) → Option (List Char × List Char)
  | [] => none
  | cell :: rest =>
    match lastTagged rest with
    | some r => some r
    | none =>
      match tagOf cell with
      | (name, some d) => some (name, d)
      | (_, none) => none

/-- Last line of `cells[1:]` that carries no date, with its remainder. -/
def lastUntagged : List (List Char) → Option (List Char)
  | [] => none
  | cell :: rest =>
    match lastUntagged rest with
    | some r => some r
    | none =>
      match tagOf cell with
      | (_, some _) => none
      | (name, none) => some name


/-! ## Claim theorems -/

/-- Claim C1: in the ordered pass of `process_cells` over the lines after
the first (each trimmed and tagged), a date-bearing line overwrites the
birth date with its date and the subject name with its remainder (the last
date-bearing line wins), while each non-date line overwrites `parent_2`
(only the last one survives); concretely,
`parse(["Maria Santos", "José Santos", "Ana Pereira 01-02-1990"])` yields
subjectName `Ana Pereira`, parent1 `Maria Santos`, parent2 `José Santos`,
dateOfBirth `01-02-1990`. -/
theorem claim1_step3_last_wins :
    (∀ (ls : List (List Char)) (n0 p0 d0 : List Char),
      linesPass ls n0 p0 d0 =
        ((match lastTagged ls with | some nd => nd.1 | none => n0),
         (match lastUntagged ls with | some n => n | none => p0),
         (match lastTagged ls with | some nd => nd.2 | none => d0))) ∧
    cellParse [toL "Maria Santos", toL "José Santos", toL "Ana Pereira 01-02-1990"] =
      (toL "Ana Pereira", toL "Maria Santos", toL "José Santos", toL "01-02-1990") := by
  constructor
  · intro ls
    induction ls with
    | nil => intro n0 p0 d0; rfl
    | cons cell rest ih =>
      intro n0 p0 d0
      rcases h : tagOf cell with ⟨name, dOpt⟩
      cases dOpt with
      | some d =>
        have h1 : linesPass (cell :: rest) n0 p0 d0 = linesPass rest name p0 d := by
          simp [linesPass, h]
        rw [h1, ih]
        simp only [lastTagged, lastUntagged, h]
        cases lastTagged rest <;> cases lastUntagged rest <;> rfl
      | none =>
        have h1 : linesPass (cell :: rest) n0 p0 d0 = linesPass rest n0 name d0 := by
          simp [linesPass, h]
        rw [h1, ih]
        simp only [lastTagged, lastUntagged, h]
        cases lastTagged rest <;> cases lastUntagged rest <;> rfl
  · decide

/-- Claim C2 (code bug evaluation): on the failing input
`["Carlos Abreu 01-02-1990", "Maria Santos"]` the emitted fields are
subjectName `Carlos Abreu`, parent1 `Carlos Abreu` (not `Maria Santos`:
`process_cells`' fallback reassigns its local `parent_1`, which is not part
of its return value, so the caller's `parent_1` survives unchanged),
parent2 empty, dateOfBirth `01-02-1990`. -/
theorem claim2_eval_failing_input :
    cellParse [toL "Carlos Abreu 01-02-1990", toL "Maria Santos"] =
      (toL "Carlos Abreu", toL "Carlos Abreu", ([] : List Char), toL "01-02-1990") ∧
    toL "Carlos Abreu" ≠ toL "Maria Santos" := by
  exact ⟨by decide, by decide⟩

/-- Claim C3 (counterexample): the claim says the matched date is removed
from the remainder exactly once, but `str.replace` removes every
occurrence: on `"01-02-1990 A 01-02-1990"` the code's remainder is `"A"`,
while removing the match once and trimming would give `"A 01-02-1990"`. -/
theorem claim3_counterexample :
    extract_name_and_date (toL "01-02-1990 A 01-02-1990") =
      (toL "A", some (toL "01-02-1990")) ∧
    strip (removeFirstOcc (toL "01-02-1990") (toL "01-02-1990 A 01-02-1990")) =
      toL "A 01-02-1990" ∧
    (toL "A" : List Char) ≠ toL "A 01-02-1990" := by
  exact ⟨by decide, by decide, by decide⟩

/-- Claim C3 as amended: on a date-bearing line the tagger returns the
first (leftmost) `\d{2}-\d{2}-\d{4}` match as the date, and as remainder
the input with every left-to-right occurrence of that matched substring
removed and then trimmed; a line with no match comes back unchanged
(untrimmed) with an empty date. -/
theorem claim3_amended_remove_all :
    (∀ t : List Char, extract_name_and_date t =
      match searchDate t with
      | some d => (strip (stripOcc d t), some d)
      | none => (t, none)) ∧
    (∀ (t d : List Char), searchDate t = some d →
      ∃ i, dateAt (t.drop i) = some d ∧ ∀ j, j < i → dateAt (t.drop j) = none) ∧
    extract_name_and_date (toL "João Silva 01-02-1990") =
      (toL "João Silva", some (toL "01-02-1990")) ∧
    extract_name_and_date (toL "01-02-1990 A 01-02-1990") =
      (toL "A", some (toL "01-02-1990")) ∧
    extract_name_and_date (toL "no date here") = (toL "no date here", none) := by
  refine ⟨fun t => rfl, ?_, by decide, by decide, by decide⟩
  intro t
  induction t with
  | nil => intro d h; simp [searchDate] at h
  | cons c rest ih =>
    intro d h
    rw [searchDate] at h
    cases hda : dateAt (c :: rest) with
    | some d0 =>
      rw [hda] at h
      refine ⟨0, ?_, ?_⟩
      · simpa using hda.trans (by injection h with h; rw [h])
      · intro j hj; omega
    | none =>
      rw [hda] at h
      obtain ⟨i, hi, hj⟩ := ih d h
      refine ⟨i + 1, by simpa using hi, ?_⟩
      intro j hjlt
      cases j with
      | zero => simpa using hda
      | succ k => simpa using hj k (by omega)

/-- Claim C3 witness: the leftmost-match conjunct applied at a concrete
date-bearing line. -/
theorem claim3_witness :
    ∃ i, dateAt ((toL "ab 01-02-1990").drop i) = some (toL "01-02-1990") ∧
      ∀ j, j < i → dateAt ((toL "ab 01-02-1990").drop j) = none :=
  claim3_amended_remove_all.2.1 (toL "ab 01-02-1990") (toL "01-02-1990") (by decide)

/-- Claim C5: a table row (with its first cell present, as the PDF
collaborator guarantees) produces no record exactly when that cell is the
literal header `NOME COMPLETO FILIAÇÃO DATA NASC.º` or splits on line
breaks into fewer than 2 lines; every other row produces exactly one
record combining the `cellParse` fields with the document's current region
labels, its document type, and the basename of its source file; and each
row's contribution is independent of the rows after it. -/
theorem claim5_row_skip_emit :
    (∀ (cell0 : List Char) (extraCells : List (List Char)) (c p : Option (List Char))
        (ft path : List Char),
      process_table [cell0 :: extraCells] c p ft path =
        if cell0 = headerL ∨ (splitNl cell0).length < 2 then []
        else [mkRec (cellParse (splitNl cell0)) c p ft path]) ∧
    (∀ (cell0 : List Char) (extraCells : List (List Char))
        (rest : List (List (List Char))) (c p : Option (List Char)) (ft path : List Char),
      process_table ((cell0 :: extraCells) :: rest) c p ft path =
        process_table [cell0 :: extraCells] c p ft path ++ process_table rest c p ft path) := by
  constructor
  · intro cell0 extra c p ft path
    by_cases h1 : cell0 = headerL
    · simp [process_table, processRows, h1]
    · by_cases h2 : (splitNl cell0).length < 2 <;>
        simp [process_table, processRows, h1, h2]
  · intro cell0 extra rest c p ft path
    by_cases h1 : cell0 = headerL
    · simp [process_table, processRows, h1]
    · by_cases h2 : (splitNl cell0).length < 2 <;>
        simp [process_table, processRows, h1, h2]

/-- Claim C7: on a page whose text matches the Concelho/Posto pattern, the
extractor returns the first capture trimmed and the second capture trimmed,
cleared of trailing `N`s and trimmed again; on a non-matching page it
returns two empty (`None`) values; concretely the spec's example text
yields `("Lisboa", "Benfica")`. -/
theorem claim7_region_extract :
    (∀ t : List Char, extract_concelho_and_posto t =
      match searchConcelho t with
      | some (g1, g2) => (some (strip g1), some (strip (rstripN (strip g2))))
      | none => (none, none)) ∧
    extract_concelho_and_posto (toL "... Concelho : Lisboa Posto : Benfica N ...") =
      (some (toL "Lisboa"), some (toL "Benfica")) ∧
    extract_concelho_and_posto (toL "sem rotulos nesta pagina") = (none, none) := by
  refine ⟨fun t => rfl, by decide, by decide⟩

/-- Claim C8: classification is a case-insensitive substring test with the
`naciona` stem checked first (a name containing it is `nacionais` even when
it also contains `estrangeiro`), then the `estrangeiro` stem, else
`unknown`; and classification depends only on the lower-cased name, so any
re-casing of the input classifies identically. -/
theorem claim8_classifier :
    (∀ s : List Char, containsSub (toL "naciona") (lowerL s) = true →
      determine_type s = toL "nacionais") ∧
    (∀ s : List Char, containsSub (toL "naciona") (lowerL s) = false →
      containsSub (toL "estrangeiro") (lowerL s) = true →
      determine_type s = toL "estrangeiros") ∧
    (∀ s : List Char, containsSub (toL "naciona") (lowerL s) = false →
      containsSub (toL "estrangeiro") (lowerL s) = false →
      determine_type s = toL "unknown") ∧
    (∀ s t : List Char, lowerL s = lowerL t → determine_type s = determine_type t) ∧
    determine_type (toL "SC_A_NACIONAIS_2024.pdf") = toL "nacionais" ∧
    determine_type (toL "sc_a_nacionais_2024.PDF") = toL "nacionais" ∧
    determine_type (toL "x_nacionais_estrangeiros.pdf") = toL "nacionais" := by
  refine ⟨?_, ?_, ?_, ?_, by decide, by decide, by decide⟩
  · intro s h; simp [determine_type, h]
  · intro s h1 h2; simp [determine_type, h1, h2]
  · intro s h1 h2; simp [determine_type, h1, h2]
  · intro s t h; simp only [determine_type, h]

/-- Claim C8 witness: the invariance conjunct applied to the two concrete
spellings of the same file name. -/
theorem claim8_witness :
    determine_type (toL "SC_A_NACIONAIS_2024.pdf") =
      determine_type (toL "sc_a_nacionais_2024.PDF") :=
  claim8_classifier.2.2.2.1 (toL "SC_A_NACIONAIS_2024.pdf")
    (toL "sc_a_nacionais_2024.PDF") (by decide)

/-- Every record a table contributes carries the region labels, document
type, and source-file basename it was handed. -/
theorem mem_processRows (c p : Option (List Char)) (ft path : List Char) :
    ∀ (rows : List (List (List Char))) (r : Record), r ∈ processRows c p ft path rows →
      r.concelho = c ∧ r.posto = p ∧ r.docType = ft ∧ r.fileName = basenameP path := by
  intro rows
  induction rows with
  | nil => intro r h; simp [processRows] at h
  | cons row rest ih =>
    intro r h
    rw [processRows] at h
    split at h
    · simp at h
    · split_ifs at h with h1 h2
      · exact ih r h
      · exact ih r h
      · rcases List.mem_cons.mp h with hr | hr
        · subst hr; exact ⟨rfl, rfl, rfl, rfl⟩
        · exact ih r hr

/-- Every record the page loop adds to its accumulator carries the
document type and source-file basename the loop was started with. -/
theorem mem_pagesLoop (ft path : List Char) :
    ∀ (pages : List Page) (c p : Option (List Char)) (acc : List Record) (r : Record),
      r ∈ (pagesLoop ft path pages c p acc).1 →
      r ∈ acc ∨ (r.docType = ft ∧ r.fileName = basenameP path) := by
  intro pages
  induction pages with
  | nil => intro c p acc r h; exact Or.inl h
  | cons pg rest ih =>
    intro c p acc r h
    rw [pagesLoop] at h
    have hstep : ∀ (c' p' : Option (List Char)) (tbls : List (List (List (List Char)))),
        r ∈ (pagesLoop ft path rest c' p'
            (acc ++ tbls.flatMap (fun tb => process_table tb c' p' ft path))).1 →
        r ∈ acc ∨ (r.docType = ft ∧ r.fileName = basenameP path) := by
      intro c' p' tbls hmem
      rcases ih c' p' _ r hmem with hin | hp
      · rcases List.mem_append.mp hin with hacc | hfl
        · exact Or.inl hacc
        · obtain ⟨tb, _, hr⟩ := List.mem_flatMap.mp hfl
          exact Or.inr (mem_processRows c' p' ft path tb r hr).2.2
      · exact Or.inr hp
    split at h
    · split at h
      · exact Or.inl h
      · split at h
        · exact Or.inl h
        · exact hstep _ _ _ h
    · split at h
      · exact Or.inl h
      · exact hstep c p _ h

/-- Claim C6: once both region labels are non-empty, the page loop never
reassigns them (the final labels equal the incoming ones), every record it
adds beyond the incoming accumulator carries exactly those labels, and the
pages' text is never consulted again (poisoning every remaining page's text
fetch leaves the result unchanged). -/
theorem claim6_region_sticky :
    ∀ (pages : List Page) (c p : Option (List Char)) (acc : List Record)
      (ft path : List Char), truthy c = true → truthy p = true →
      (pagesLoop ft path pages c p acc).2 = (c, p) ∧
      (∀ r, r ∈ (pagesLoop ft path pages c p acc).1 →
        r ∈ acc ∨ (r.concelho = c ∧ r.posto = p)) ∧
      pagesLoop ft path (pages.map eraseText) c p acc = pagesLoop ft path pages c p acc := by
  intro pages
  induction pages with
  | nil => intro c p acc ft path hc hp; exact ⟨rfl, fun r h => Or.inl h, rfl⟩
  | cons pg rest ih =>
    intro c p acc ft path hc hp
    have hcond : (!truthy c || !truthy p) = false := by rw [hc, hp]; rfl
    cases htb : pg.tablesRes with
    | error e =>
      have e1 : pagesLoop ft path (pg :: rest) c p acc = (acc, c, p) := by
        simp [pagesLoop, hcond, htb]
      have e2 : pagesLoop ft path ((pg :: rest).map eraseText) c p acc = (acc, c, p) := by
        simp [pagesLoop, hcond, htb, eraseText]
      rw [e1, e2]
      exact ⟨rfl, fun r h => Or.inl h, rfl⟩
    | ok tbls =>
      have e1 : pagesLoop ft path (pg :: rest) c p acc =
          pagesLoop ft path rest c p
            (acc ++ tbls.flatMap (fun tb => process_table tb c p ft path)) := by
        simp [pagesLoop, hcond, htb]
      have e2 : pagesLoop ft path ((pg :: rest).map eraseText) c p acc =
          pagesLoop ft path (rest.map eraseText) c p
            (acc ++ tbls.flatMap (fun tb => process_table tb c p ft path)) := by
        simp [pagesLoop, hcond, htb, eraseText]
      obtain ⟨ih1, ih2, ih3⟩ :=
        ih c p (acc ++ tbls.flatMap (fun tb => process_table tb c p ft path)) ft path hc hp
      refine ⟨by rw [e1]; exact ih1, ?_, by rw [e1, e2]; exact ih3⟩
      intro r h
      rw [e1] at h
      rcases ih2 r h with hin | hlab
      · rcases List.mem_append.mp hin with hacc | hfl
        · exact Or.inl hacc
        · obtain ⟨tb, _, hr⟩ := List.mem_flatMap.mp hfl
          obtain ⟨hcc, hpp, _, _⟩ := mem_processRows c p ft path tb r hr
          exact Or.inr ⟨hcc, hpp⟩
      · exact Or.inr hlab

/-- Claim C6 witness: the stickiness theorem applied to a one-page document
whose labels are already set; the page's text fetch is poisoned, yet the
labels survive and the page's record carries them. -/
theorem claim6_witness :
    (pagesLoop (toL "t") (toL "p")
        [⟨Except.error (), Except.ok [[[toL "A\nB 01-02-1990"]]]⟩]
        (some (toL "Lisboa")) (some (toL "Benfica")) []).2 =
      (some (toL "Lisboa"), some (toL "Benfica")) ∧
    (∀ r, r ∈ (pagesLoop (toL "t") (toL "p")
        [⟨Except.error (), Except.ok [[[toL "A\nB 01-02-1990"]]]⟩]
        (some (toL "Lisboa")) (some (toL "Benfica")) []).1 →
      r ∈ ([] : List Record) ∨
        (r.concelho = some (toL "Lisboa") ∧ r.posto = some (toL "Benfica"))) ∧
    pagesLoop (toL "t") (toL "p")
        ([⟨Except.error (), Except.ok [[[toL "A\nB 01-02-1990"]]]⟩].map eraseText)
        (some (toL "Lisboa")) (some (toL "Benfica")) [] =
      pagesLoop (toL "t") (toL "p")
        [⟨Except.error (), Except.ok [[[toL "A\nB 01-02-1990"]]]⟩]
        (some (toL "Lisboa")) (some (toL "Benfica")) [] :=
  claim6_region_sticky
    [⟨Except.error (), Except.ok [[[toL "A\nB 01-02-1990"]]]⟩]
    (some (toL "Lisboa")) (some (toL "Benfica")) [] (toL "t") (toL "p")
    (by decide) (by decide)

/-- Claim C9: the document type of every emitted record is
`determine_type` of the document's full path (directories included), while
the record's source-file field holds only the basename; concretely a path
whose directory part carries the `naciona` stem but whose basename does not
still classifies every record as `nacionais`. -/
theorem claim9_type_from_path :
    (∀ (pages : List Page) (path : List Char) (r : Record),
      r ∈ (extract_tables_from_pdf pages path).1 →
      r.docType = determine_type path ∧ r.fileName = basenameP path) ∧
    determine_type (toL "dados/nacionais/registo.pdf") = toL "nacionais" ∧
    determine_type (toL "registo.pdf") = toL "unknown" ∧
    basenameP (toL "dados/nacionais/registo.pdf") = toL "registo.pdf" ∧
    extract_tables_from_pdf
        [⟨Except.ok (toL "x"), Except.ok [[[toL "A\nB 01-02-1990"]]]⟩]
        (toL "dados/nacionais/registo.pdf") =
      ([⟨toL "B", toL "A", [], toL "01-02-1990", none, none, toL "nacionais",
          toL "registo.pdf"⟩], none, none) := by
  refine ⟨?_, by decide, by decide, by decide, by decide⟩
  intro pages path r h
  rcases mem_pagesLoop (determine_type path) path pages none none [] r h with h0 | hp
  · simp at h0
  · exact hp

/-- Claim C9 witness: the membership conjunct applied to the concrete
one-page document under a `nacionais` directory. -/
theorem claim9_witness :
    (⟨toL "B", toL "A", [], toL "01-02-1990", none, none, toL "nacionais",
        toL "registo.pdf"⟩ : Record).docType =
      determine_type (toL "dados/nacionais/registo.pdf") ∧
    (⟨toL "B", toL "A", [], toL "01-02-1990", none, none, toL "nacionais",
        toL "registo.pdf"⟩ : Record).fileName =
      basenameP (toL "dados/nacionais/registo.pdf") :=
  claim9_type_from_path.1
    [⟨Except.ok (toL "x"), Except.ok [[[toL "A\nB 01-02-1990"]]]⟩]
    (toL "dados/nacionais/registo.pdf")
    ⟨toL "B", toL "A", [], toL "01-02-1990", none, none, toL "nacionais",
      toL "registo.pdf"⟩
    (by decide)

/-- Claim C10: while the labels are not yet both non-empty, a page whose
text fetch succeeds replaces both labels wholesale — the result does not
depend on the falsy labels carried in.  Concretely, a first page that
yields a non-empty concelho with an empty posto followed by a page with no
match leaves the document with no labels at all: the earlier `Lisboa` is
discarded rather than retained. -/
theorem claim10_labels_wholesale :
    (∀ (pg : Page) (rest : List Page) (c p c' p' : Option (List Char))
        (acc : List Record) (ft path t : List Char),
      (!truthy c || !truthy p) = true → (!truthy c' || !truthy p') = true →
      pg.textRes = Except.ok t →
      pagesLoop ft path (pg :: rest) c p acc =
        pagesLoop ft path (pg :: rest) c' p' acc) ∧
    extract_concelho_and_posto (toL "Concelho : Lisboa Posto : N") =
      (some (toL "Lisboa"), some (toL "")) ∧
    truthy (some (toL "Lisboa")) = true ∧
    truthy (some (toL "")) = false ∧
    extract_concelho_and_posto (toL "sem rotulos") = (none, none) ∧
    (extract_tables_from_pdf
      [⟨Except.ok (toL "Concelho : Lisboa Posto : N"), Except.ok []⟩,
       ⟨Except.ok (toL "sem rotulos"), Except.ok []⟩] (toL "doc.pdf")).2 =
      (none, none) := by
  refine ⟨?_, by decide, by decide, by decide, by decide, by decide⟩
  intro pg rest c p c' p' acc ft path t h1 h2 ht
  simp [pagesLoop, h1, h2, ht]

/-- Claim C10 witness: the wholesale-replacement conjunct applied at a
concrete page, starting labels `(None, None)` versus
`(some "Lisboa", some "")`. -/
theorem claim10_witness :
    pagesLoop (toL "t") (toL "p") [⟨Except.ok (toL "x"), Except.ok []⟩]
        none none [] =
      pagesLoop (toL "t") (toL "p") [⟨Except.ok (toL "x"), Except.ok []⟩]
        (some (toL "Lisboa")) (some (toL "")) [] :=
  claim10_labels_wholesale.1 ⟨Except.ok (toL "x"), Except.ok []⟩ [] none none
    (some (toL "Lisboa")) (some (toL "")) [] (toL "t") (toL "p") (toL "x")
    (by decide) (by decide) rfl

/-- Claim C4 (counterexample): in a three-page document whose middle page
faults in `extract_tables`, the records of the third page are NOT produced
— the run returns only the first page's record, although the third page
alone would produce its own (different) record.  The claimed per-page fault
isolation does not hold: the `try/except` sits outside the page loop. -/
theorem claim4_counterexample :
    extract_tables_from_pdf
        [⟨Except.ok (toL "x"), Except.ok [[[toL "A\nB 01-02-1990"]]]⟩,
         ⟨Except.ok (toL "x"), Except.error ()⟩,
         ⟨Except.ok (toL "x"), Except.ok [[[toL "C\nD 02-03-1991"]]]⟩]
        (toL "doc.pdf") =
      ([⟨toL "B", toL "A", [], toL "01-02-1990", none, none, toL "unknown",
          toL "doc.pdf"⟩], none, none) ∧
    extract_tables_from_pdf
        [⟨Except.ok (toL "x"), Except.ok [[[toL "C\nD 02-03-1991"]]]⟩]
        (toL "doc.pdf") =
      ([⟨toL "D", toL "C", [], toL "02-03-1991", none, none, toL "unknown",
          toL "doc.pdf"⟩], none, none) ∧
    (⟨toL "B", toL "A", [], toL "01-02-1990", none, none, toL "unknown",
        toL "doc.pdf"⟩ : Record) ≠
      ⟨toL "D", toL "C", [], toL "02-03-1991", none, none, toL "unknown",
        toL "doc.pdf"⟩ := by
  exact ⟨by decide, by decide, by decide⟩

/-- Claim C4 as amended: a fault in a page's text extraction or table
extraction ends the page loop — the document returns only the records and
labels accumulated before the fault, and later pages contribute nothing.
Only a fault inside one table's row iteration is isolated: that table keeps
the records of its earlier rows, drops its remaining rows, and the other
tables of the page (processed independently) still contribute. -/
theorem claim4_amended_fault_scope :
    (∀ (pg : Page) (rest : List Page) (c p : Option (List Char))
        (acc : List Record) (ft path : List Char),
      (!truthy c || !truthy p) = true → pg.textRes = Except.error () →
      pagesLoop ft path (pg :: rest) c p acc = (acc, c, p)) ∧
    (∀ (pg : Page) (rest : List Page) (c p : Option (List Char))
        (acc : List Record) (ft path : List Char),
      (!truthy c || !truthy p) = false → pg.tablesRes = Except.error () →
      pagesLoop ft path (pg :: rest) c p acc = (acc, c, p)) ∧
    (∀ (pg : Page) (rest : List Page) (c p : Option (List Char))
        (acc : List Record) (ft path t : List Char),
      (!truthy c || !truthy p) = true → pg.textRes = Except.ok t →
      pg.tablesRes = Except.error () →
      pagesLoop ft path (pg :: rest) c p acc =
        (acc, (extract_concelho_and_posto t).1, (extract_concelho_and_posto t).2)) ∧
    (∀ (cell0 : List Char) (extraCells : List (List Char))
        (rs : List (List (List Char))) (c p : Option (List Char)) (ft path : List Char),
      process_table ((cell0 :: extraCells) :: ([] : List (List Char)) :: rs) c p ft path =
        process_table [cell0 :: extraCells] c p ft path) ∧
    (∀ (tb : List (List (List Char))) (rest : List (List (List (List Char))))
        (c p : Option (List Char)) (ft path : List Char),
      (tb :: rest).flatMap (fun t => process_table t c p ft path) =
        process_table tb c p ft path ++
          rest.flatMap (fun t => process_table t c p ft path)) := by
  refine ⟨?_, ?_, ?_, ?_, ?_⟩
  · intro pg rest c p acc ft path h1 h2
    simp [pagesLoop, h1, h2]
  · intro pg rest c p acc ft path h1 h2
    simp [pagesLoop, h1, h2]
  · intro pg rest c p acc ft path t h1 h2 h3
    simp [pagesLoop, h1, h2, h3]
  · intro cell0 extra rs c p ft path
    by_cases h1 : cell0 = headerL
    · simp [process_table, processRows, h1]
    · by_cases h2 : (splitNl cell0).length < 2 <;>
        simp [process_table, processRows, h1, h2]
  · intro tb rest c p ft path
    simp

/-- Claim C4 witness: the abort conjunct applied at a concrete page whose
text extraction faults, with no labels yet found. -/
theorem claim4_witness :
    pagesLoop (toL "t") (toL "p")
        [⟨Except.error (), Except.ok [[[toL "A\nB 01-02-1990"]]]⟩,
         ⟨Except.ok (toL "x"), Except.ok [[[toL "C\nD 02-03-1991"]]]⟩]
        none none [] = ([], none, none) :=
  claim4_amended_fault_scope.1
    ⟨Except.error (), Except.ok [[[toL "A\nB 01-02-1990"]]]⟩
    [⟨Except.ok (toL "x"), Except.ok [[[toL "C\nD 02-03-1991"]]]⟩]
    none none [] (toL "t") (toL "p") (by decide) rfl

end PdfExtract
